import Mathlib

/-!
Shallow embedding of the muzic_channelz channel orchestrator
(`app/services.py`, `app/metadata.py`, `app/metadata_cache.py`,
`app/ffmpeg_runner.py`, `app/now_playing.py`) together with proofs of the
specification claims about it.

Python dicts keyed by channel id are modelled as association lists
(`List (String × α)`), Python sets as `List String` with membership
semantics, and the shared mutable module-level tables of `services.py` as
one explicit `SupervisorState` record threaded through the operations.
Network and subprocess effects are modelled by explicit outcome parameters
(e.g. `spawn : Option Nat` for process creation).
-/

namespace MuzicChannelz

/-! ## Dictionary / set helpers (Python `dict` / `set` semantics) -/

/-- `d[k] = v` on a Python dict: replace the value when the key is present,
otherwise append a new binding. -/
def dictInsert [BEq κ] (k : κ) (v : α) (d : List (κ × α)) : List (κ × α) :=
  if d.any (fun p => p.1 == k) then
    d.map (fun p => if p.1 == k then (k, v) else p)
  else d ++ [(k, v)]

/-- `d.pop(k, None)` on a Python dict: remove the binding for `k` if present. -/
def dictPop [BEq κ] (k : κ) (d : List (κ × α)) : List (κ × α) :=
  d.filter (fun p => p.1 != k)

/-- `k in d` on a Python dict. -/
def dictContains [BEq κ] (k : κ) (d : List (κ × α)) : Bool :=
  d.any (fun p => p.1 == k)

/-- `d.get(k)` on a Python dict. -/
def dictGet [BEq κ] (k : κ) (d : List (κ × α)) : Option α :=
  (d.find? (fun p => p.1 == k)).map (·.2)

/-- Number of bindings for key `k` (a Python dict always has 0 or 1). -/
def countKey [BEq κ] (k : κ) (d : List (κ × α)) : Nat :=
  (d.filter (fun p => p.1 == k)).length

/-- `s.add(k)` on a Python set. -/
def setAdd (k : String) (s : List String) : List String :=
  if s.contains k then s else s ++ [k]

/-- `s.discard(k)` on a Python set. -/
def setDiscard (k : String) (s : List String) : List String :=
  s.filter (fun x => x != k)

/-! ## Configuration data model (`app/models.py`, fields the orchestrator reads) -/

/-- `FFmpegProfile` (only the `name` field matters for profile resolution). -/
structure FFmpegProfile where
  name : String
deriving Repr, DecidableEq

/-- `MetadataProvider`. -/
structure MetadataProvider where
  name : String
  api_key_or_token : String
  base_url : String
deriving Repr, DecidableEq

/-- `Channel` (fields the supervisor reads). -/
structure Channel where
  id : String
  enabled : Bool
  ffmpeg_profile_id : String
deriving Repr, DecidableEq

/-- `AdminState` (fields the supervisor and the metadata resolver read). -/
structure AdminState where
  channels : List Channel
  ffmpeg_profiles : List FFmpegProfile
  metadata_providers : List MetadataProvider
deriving Repr, DecidableEq

/-! ## Supervisor state (`app/services.py` module-level tables) -/

/-- The module-level mutable tables of `services.py`:
`_running`, `_now_playing_stop`, `_now_playing_tasks`, `_watch_tasks`,
`_stop_requested`, `_last_auto_restart_time`.  Values of the four dicts are
opaque handles, modelled as `Nat`. -/
structure SupervisorState where
  running : List (String × Nat)
  nowPlayingStop : List (String × Nat)
  nowPlayingTasks : List (String × Nat)
  watchTasks : List (String × Nat)
  stopRequested : List String
  lastAutoRestart : List (String × Nat)
deriving Repr, DecidableEq

/-- `is_running(channel_id)`: `channel_id in _running`. -/
def is_running (st : SupervisorState) (channel_id : String) : Bool :=
  dictContains channel_id st.running

/-- `_get_profile(state, profile_id)`: first profile whose *name* equals
`profile_id`, else the first profile in the list, else `None`. -/
def get_profile (state : AdminState) (profile_id : String) : Option FFmpegProfile :=
  match state.ffmpeg_profiles.find? (fun p => p.name == profile_id) with
  | some p => some p
  | none => state.ffmpeg_profiles.head?

/-- `_start_single_channel(channel, state, index)` restricted to its effect on
the supervisor tables.  `spawn` is the outcome of `start_channel_ffmpeg`
(`some pid` when the process was created, `none` on spawn failure). -/
def start_single_channel (channel : Channel) (state : AdminState) (spawn : Option Nat)
    (st : SupervisorState) : String × SupervisorState :=
  match get_profile state channel.ffmpeg_profile_id with
  | none => ("error: no ffmpeg profile", st)
  | some _ =>
    match spawn with
    | none => ("error: failed to start", st)
    | some pid =>
      ("ok",
        { st with
          running := dictInsert channel.id pid st.running
          nowPlayingStop := dictInsert channel.id pid st.nowPlayingStop
          nowPlayingTasks := dictInsert channel.id pid st.nowPlayingTasks
          watchTasks := dictInsert channel.id pid st.watchTasks })

/-- `start_channel(channel_id)`. -/
def start_channel (channel_id : String) (state : AdminState) (spawn : Option Nat)
    (st : SupervisorState) : String × SupervisorState :=
  if is_running st channel_id then ("ok", st)
  else
    match state.channels.find? (fun c => c.id == channel_id) with
    | none => ("error: channel not found", st)
    | some ch =>
      if !ch.enabled then ("error: channel disabled", st)
      else start_single_channel ch state spawn st

/-- `stop_channel(channel_id)`: adds the stop intent, terminates the process
(if any), and removes every per-channel entry from the tables. -/
def stop_channel (channel_id : String) (st : SupervisorState) : SupervisorState :=
  let st1 := { st with stopRequested := setAdd channel_id st.stopRequested }
  if !dictContains channel_id st1.running then
    { st1 with
      stopRequested := setDiscard channel_id st1.stopRequested
      nowPlayingStop := dictPop channel_id st1.nowPlayingStop
      nowPlayingTasks := dictPop channel_id st1.nowPlayingTasks
      watchTasks := dictPop channel_id st1.watchTasks }
  else
    { st1 with
      running := dictPop channel_id st1.running
      nowPlayingTasks := dictPop channel_id st1.nowPlayingTasks
      nowPlayingStop := dictPop channel_id st1.nowPlayingStop
      stopRequested := setDiscard channel_id st1.stopRequested
      watchTasks := dictPop channel_id st1.watchTasks }

/-- No supervisor table holds an entry for `channel_id`. -/
def noEntriesFor (channel_id : String) (st : SupervisorState) : Bool :=
  !dictContains channel_id st.running &&
  !dictContains channel_id st.nowPlayingStop &&
  !dictContains channel_id st.nowPlayingTasks &&
  !dictContains channel_id st.watchTasks &&
  !st.stopRequested.contains channel_id

/-! ## Watch task (`_watch_ffmpeg_exit`) -/

/-- Outcome of one run of the watch task after the process exited. -/
inductive WatchOutcome where
  /-- The stop-intent flag was set: requested stop, no restart. -/
  | stopIntent : WatchOutcome
  /-- Unexpected exit, but at wake-up the channel was already running again. -/
  | abandonedRunning (delay : Nat) : WatchOutcome
  /-- Unexpected exit, but at wake-up the channel no longer exists. -/
  | abandonedNotFound (delay : Nat) : WatchOutcome
  /-- Unexpected exit, but at wake-up the channel is disabled. -/
  | abandonedDisabled (delay : Nat) : WatchOutcome
  /-- Exactly one auto-restart was attempted after `delay` seconds. -/
  | restartAttempted (delay : Nat) (result : String) : WatchOutcome
deriving Repr, DecidableEq

/-- Number of auto-restart attempts an outcome performed. -/
def WatchOutcome.attempts : WatchOutcome → Nat
  | .restartAttempted _ _ => 1
  | _ => 0

/-- The delay slept before deciding about a restart (`none` for a requested stop). -/
def WatchOutcome.delay? : WatchOutcome → Option Nat
  | .stopIntent => none
  | .abandonedRunning d => some d
  | .abandonedNotFound d => some d
  | .abandonedDisabled d => some d
  | .restartAttempted d _ => some d

/-- Environment of one watch-task run: the monotonic clock at the exit and at
the restart, the supervisor state and admin state observed after the sleep
(other tasks may have run meanwhile), and the spawn outcome of the restart. -/
structure WatchEnv where
  nowAtExit : Nat
  stAtWake : SupervisorState
  stateAtWake : AdminState
  nowAtRestart : Nat
  spawn : Option Nat

/-- `_watch_ffmpeg_exit(channel_id, proc)` after `proc.wait()` returned:
cleanup of the per-channel tables, stop-intent check, delay selection
(base 15 s, escalated 60 s inside the 120 s cooldown window), and the
guarded single auto-restart attempt. -/
def watch_ffmpeg_exit (channel_id : String) (st : SupervisorState) (env : WatchEnv) :
    WatchOutcome × SupervisorState :=
  let st1 : SupervisorState :=
    { st with
      running := dictPop channel_id st.running
      nowPlayingTasks := dictPop channel_id st.nowPlayingTasks
      nowPlayingStop := dictPop channel_id st.nowPlayingStop
      watchTasks := dictPop channel_id st.watchTasks }
  if st1.stopRequested.contains channel_id then
    (.stopIntent, { st1 with stopRequested := setDiscard channel_id st1.stopRequested })
  else
    let delay : Nat :=
      match dictGet channel_id st1.lastAutoRestart with
      | some t => if env.nowAtExit - t < 120 then 60 else 15
      | none => 15
    let st2 := env.stAtWake
    if dictContains channel_id st2.running then (.abandonedRunning delay, st2)
    else
      match env.stateAtWake.channels.find? (fun c => c.id == channel_id) with
      | none => (.abandonedNotFound delay, st2)
      | some ch =>
        if !ch.enabled then (.abandonedDisabled delay, st2)
        else
          let st3 := { st2 with lastAutoRestart := dictInsert channel_id env.nowAtRestart st2.lastAutoRestart }
          let (res, st4) := start_single_channel ch env.stateAtWake env.spawn st3
          (.restartAttempted delay res, st4)

/-! ## Python string helpers

Python text is modelled as `List Char`.  `str.strip()` / `str.lower()` /
`re.sub(r"\s+", " ", s)` are modelled for the ASCII range, which covers every
string the claims mention. -/

/-- Python `\s` on the ASCII range: space, tab, newline, carriage return,
vertical tab, form feed. -/
def isPySpace (c : Char) : Bool :=
  c == ' ' || c == '\t' || c == '\n' || c == '\r' ||
  c == Char.ofNat 11 || c == Char.ofNat 12

/-- Python `str.strip()`: drop leading and trailing whitespace. -/
def pyStrip (l : List Char) : List Char :=
  ((l.dropWhile isPySpace).reverse.dropWhile isPySpace).reverse

/-- Python `str.strip()` on `String`. -/
def pyStripStr (s : String) : String :=
  ⟨pyStrip s.data⟩

/-- Worker for `re.sub(r"\s+", " ", s)`: the flag records whether the scanner
is inside a whitespace run that has already emitted its single space. -/
def collapseWsAux : Bool → List Char → List Char
  | _, [] => []
  | inRun, c :: rest =>
    if isPySpace c then
      if inRun then collapseWsAux true rest
      else ' ' :: collapseWsAux true rest
    else c :: collapseWsAux false rest

/-- `re.sub(r"\s+", " ", s)`: replace each maximal whitespace run by one space. -/
def collapseWs (l : List Char) : List Char :=
  collapseWsAux false l

/-- Join a list of strings with a separator (Python `sep.join(parts)`). -/
def joinSep (sep : List Char) (parts : List (List Char)) : List Char :=
  (parts.intersperse sep).flatten

/-! ## Overlay coordinate resolution (`to_px_x` / `to_px_y` in
`_start_single_channel`, `app/services.py`)

Python computes `int(x * 19.2)` and `int(y * 10.8)` in binary floating point.
For the coordinate magnitudes involved the float product rounds to the exact
rational `96*x/5` (resp. `54*y/5`) closely enough that `int` truncation agrees
with exact truncation toward zero, which `Int.tdiv` implements. -/

/-- `to_px_x(x)`: percent-to-pixel scaling on the 1920-wide canvas. -/
def to_px_x (placements_from_editor : Bool) (x : Int) : Int :=
  if placements_from_editor ∧ x ≤ 100 then (x * 96).tdiv 5 else x

/-- `to_px_y(y)`: percent-to-pixel scaling on the 1080-high canvas. -/
def to_px_y (placements_from_editor : Bool) (y : Int) : Int :=
  if placements_from_editor ∧ y ≤ 100 then (y * 54).tdiv 5 else y

/-! ## Type-only bio heuristic (`_is_type_only_bio`, `app/metadata.py`)

The regex
`^(Group|Person|Orchestra|Choir|Character|Other)(\s*·\s*[^·]+)?\s*(\([A-Z]{2}\))?$`
with `re.IGNORECASE` is embedded as an executable backtracking matcher: each
piece is matched with an existential over the split points, which is exactly
the boolean semantics of the regex. -/

/-- ASCII letter (what `[A-Z]` matches under `re.IGNORECASE`). -/
def isAsciiLetter (c : Char) : Bool :=
  ('A' ≤ c && c ≤ 'Z') || ('a' ≤ c && c ≤ 'z')

/-- Case-insensitive character comparison (ASCII). -/
def lowerEq (a b : Char) : Bool :=
  a.toLower == b.toLower

/-- If `w` is a case-insensitive prefix of `s`, return the remaining suffix. -/
def matchCIWord : List Char → List Char → Option (List Char)
  | [], s => some s
  | _ :: _, [] => none
  | a :: w, b :: s => if lowerEq a b then matchCIWord w s else none

/-- Python `$`: end of string, or just before a single trailing newline. -/
def matchEnd (s : List Char) : Bool :=
  s == [] || s == ['\n']

/-- `(\([A-Z]{2}\))?$` under `re.IGNORECASE`. -/
def matchCountryOptEnd (s : List Char) : Bool :=
  matchEnd s ||
  (match s with
   | '(' :: a :: b :: ')' :: rest => isAsciiLetter a && isAsciiLetter b && matchEnd rest
   | _ => false)

/-- `\s*(\([A-Z]{2}\))?$`. -/
def matchTail : List Char → Bool
  | [] => matchCountryOptEnd []
  | c :: rest => matchCountryOptEnd (c :: rest) || (isPySpace c && matchTail rest)

/-- `[^·]+` followed by `\s*(\([A-Z]{2}\))?$`. -/
def nonDotThenTail : List Char → Bool
  | [] => false
  | c :: rest => c != '·' && (matchTail rest || nonDotThenTail rest)

/-- `\s*` followed by `·` followed by `\s*[^·]+\s*(\([A-Z]{2}\))?$`. -/
def wsDotThenTail : List Char → Bool
  | [] => false
  | c :: rest =>
    (c == '·' && skipWsNonDot rest) || (isPySpace c && wsDotThenTail rest)
where
  /-- `\s*` followed by `[^·]+\s*(\([A-Z]{2}\))?$`. -/
  skipWsNonDot : List Char → Bool
  | [] => false
  | c :: rest => nonDotThenTail (c :: rest) || (isPySpace c && skipWsNonDot rest)

/-- What follows the entity-type word:
`(\s*·\s*[^·]+)?\s*(\([A-Z]{2}\))?$`. -/
def matchAfterType (s : List Char) : Bool :=
  matchTail s || wsDotThenTail s

/-- The entity-type alternation of the heuristic's regex. -/
def typeWords : List (List Char) :=
  ["Group".data, "Person".data, "Orchestra".data, "Choir".data,
   "Character".data, "Other".data]

/-- `re.match` of the whole heuristic pattern against `s`. -/
def matchTypeOnlyPattern (s : List Char) : Bool :=
  typeWords.any (fun w =>
    match matchCIWord w s with
    | some rest => matchAfterType rest
    | none => false)

/-- `_is_type_only_bio(s)`: `True` iff `s` looks like MusicBrainz type/country
only (e.g. `'Group (US)'`), not a real biography.  Mirrors the early return
`if not s or len(s) > 80: return len(s or "") <= 80`. -/
def is_type_only_bio (s : List Char) : Bool :=
  if s.isEmpty || s.length > 80 then decide (s.length ≤ 80)
  else matchTypeOnlyPattern (pyStrip s)

/-! ## Bio truncation (`_truncate`, `app/metadata.py`) -/

/-- `MAX_BIO_CHARS`. -/
def MAX_BIO_CHARS : Nat := 200

/-- Python `s.rsplit(" ", 1)[0]`: everything before the last space, or the
whole string when it has no space. -/
def rsplitBeforeLastSpace : List Char → List Char
  | [] => []
  | c :: rest =>
    if rest.contains ' ' then c :: rsplitBeforeLastSpace rest
    else if c == ' ' then []
    else c :: rest

/-- `_truncate(s, max_len)`: strip, collapse whitespace, and cut at a word
boundary with a trailing ellipsis when over budget. -/
def truncate (maxLen : Nat) (s0 : List Char) : List Char :=
  let s := pyStrip s0
  if s.isEmpty then []
  else
    let s := collapseWs s
    if s.length ≤ maxLen then s
    else if (s.take maxLen).contains ' ' then
      rsplitBeforeLastSpace (s.take (maxLen - 1)) ++ ['…']
    else s.take (maxLen - 1) ++ ['…']

/-! ## HTML tag removal (`re.sub(r"<[^>]+>", "", s)`, `app/metadata.py`)

Embedded as a scanner: `some buf` records that an unmatched `<` was seen and
`buf` holds (reversed) the characters read since; on `>` the pending tag is
dropped when nonempty, or emitted verbatim for the no-match case `<>`. -/

/-- Scanner worker for `re.sub(r"<[^>]+>", "", s)`. -/
def stripTagsGo : Option (List Char) → List Char → List Char
  | none, [] => []
  | some buf, [] => '<' :: buf.reverse
  | none, c :: rest =>
    if c == '<' then stripTagsGo (some []) rest
    else c :: stripTagsGo none rest
  | some buf, c :: rest =>
    if c == '>' then
      if buf.isEmpty then '<' :: '>' :: stripTagsGo none rest
      else stripTagsGo none rest
    else stripTagsGo (some (c :: buf)) rest

/-- `re.sub(r"<[^>]+>", "", s)`: remove HTML-ish tags. -/
def stripTags (l : List Char) : List Char :=
  stripTagsGo none l

/-! ## Metadata cache (`app/metadata_cache.py`)

The `index.json` bio entries are modelled as an association list from the
normalized key to the nullable bio (`none` = "not yet fetched").  Python's
`str.lower()` is modelled on the ASCII range via `Char.toLower`. -/

/-- A bio cache index: normalized artist key ↦ nullable bio. -/
abbrev BioCache := List (List Char × Option (List Char))

/-- `_artist_key(artist)`: `re.sub(r"\s+", " ", artist.strip().lower())`,
with the empty-input early return. -/
def artist_key (artist : List Char) : List Char :=
  if artist.isEmpty then []
  else collapseWs ((pyStrip artist).map Char.toLower)

/-- `get_cached(artist)` restricted to the bio field: `some (bio?)` when the
index holds an entry for the normalized key, `none` otherwise. -/
def get_cached_bio (index : BioCache) (artist : List Char) : Option (Option (List Char)) :=
  let key := artist_key artist
  if key.isEmpty then none else dictGet key index

/-- `set_cached(artist, bio=...)`: store `bio` under the normalized key
(`setdefault` followed by the bio field update). -/
def set_cached_bio (index : BioCache) (artist : List Char) (bio : List Char) : BioCache :=
  let key := artist_key artist
  if key.isEmpty then index else dictInsert key (some bio) index

/-- Modelled from the spec's words (§3 MetadataCacheEntry): the normalization
the claim quantifies over — case-folded (ASCII), trimmed, and with internal
whitespace runs collapsed to single spaces. -/
def specNormalizedName (s : List Char) : List Char :=
  collapseWs ((pyStrip s).map Char.toLower)

/-! ## Metadata resolver (`fetch_artist_bio` and the provider fetchers,
`app/metadata.py`)

Each provider's network interaction is represented by the text its response
yields at the extraction point of the source function (`none` = request
failure, non-success status, or an empty result list — every path that
`return ""`s before extraction). -/

/-- `_fetch_musicbrainz`: the truthy `type` / `disambiguation` / `country`
fields of the first search result (`none` = absent or falsy; all `none` also
covers a failed request or empty result list). -/
def fetch_musicbrainz_extract (typ disamb country : Option (List Char)) : List Char :=
  let parts : List (List Char) :=
    (match typ with | some t => [t] | none => []) ++
    (match disamb with | some d => [d] | none => []) ++
    (match country with | some c => [['('] ++ c ++ [')']] | none => [])
  if parts.isEmpty then []
  else
    let out := truncate MAX_BIO_CHARS (joinSep " · ".data parts)
    if is_type_only_bio out then [] else out

/-- `_fetch_theaudiodb`: `strBiographyEN`/`strBiography` of the first result,
stripped, tag-stripped, truncated. -/
def fetch_theaudiodb_extract (raw : Option (List Char)) : List Char :=
  match raw with
  | none => []
  | some r =>
    let bio := pyStrip r
    if bio.isEmpty then [] else truncate MAX_BIO_CHARS (stripTags bio)

/-- `_fetch_lastfm`: the `artist.bio.summary` field, stripped, tag-stripped,
truncated. -/
def fetch_lastfm_extract (summary : Option (List Char)) : List Char :=
  match summary with
  | none => []
  | some r =>
    let s := pyStrip r
    if s.isEmpty then [] else truncate MAX_BIO_CHARS (stripTags s)

/-- `_fetch_discogs_bio`: the artist `profile` field, stripped, tag-stripped,
truncated. -/
def fetch_discogs_extract (profile : Option (List Char)) : List Char :=
  match profile with
  | none => []
  | some r =>
    let s := pyStrip r
    if s.isEmpty then [] else truncate MAX_BIO_CHARS (stripTags s)

/-- `_fetch_genius_bio`: the artist `description` field, stripped,
tag-stripped, truncated. -/
def fetch_genius_extract (desc : Option (List Char)) : List Char :=
  match desc with
  | none => []
  | some r =>
    let s := pyStrip r
    if s.isEmpty then [] else truncate MAX_BIO_CHARS (stripTags s)

/-- The raw response text one provider call yields at its extraction point. -/
inductive ProviderRaw where
  | mb (typ disamb country : Option (List Char)) : ProviderRaw
  | adb (bioField : Option (List Char)) : ProviderRaw
  | lastfm (summary : Option (List Char)) : ProviderRaw
  | discogs (profile : Option (List Char)) : ProviderRaw
  | genius (desc : Option (List Char)) : ProviderRaw
  | nothing : ProviderRaw

/-- `sorted(providers, key=lambda p: (0 if name == "Last.fm" else 1))`:
a stable sort by a 0/1 key is the Last.fm entries followed by the rest. -/
def sort_providers (ps : List MetadataProvider) : List MetadataProvider :=
  ps.filter (fun p => pyStrip p.name.data == "Last.fm".data) ++
  ps.filter (fun p => !(pyStrip p.name.data == "Last.fm".data))

/-- The provider loop of `fetch_artist_bio`: first non-empty extraction is
cached and returned; exhaustion caches and returns the placeholder `—`. -/
def fetch_artist_bio_go (artist : List Char) (cache : BioCache) :
    List (MetadataProvider × ProviderRaw) → List Char × BioCache
  | [] => ("—".data, set_cached_bio cache artist "—".data)
  | (p, raw) :: rest =>
    let name := pyStrip p.name.data
    let key := pyStrip p.api_key_or_token.data
    if name.isEmpty then fetch_artist_bio_go artist cache rest
    else if name == "MusicBrainz".data then
      let out := match raw with
        | .mb t d c => fetch_musicbrainz_extract t d c
        | _ => []
      if out.isEmpty then fetch_artist_bio_go artist cache rest
      else (out, set_cached_bio cache artist out)
    else if name == "TheAudioDB".data then
      let out := match raw with
        | .adb r => fetch_theaudiodb_extract r
        | _ => []
      if out.isEmpty then fetch_artist_bio_go artist cache rest
      else (out, set_cached_bio cache artist out)
    else if name == "Last.fm".data then
      if key.isEmpty then fetch_artist_bio_go artist cache rest
      else
        let out := match raw with
          | .lastfm r => fetch_lastfm_extract r
          | _ => []
        if out.isEmpty then fetch_artist_bio_go artist cache rest
        else (out, set_cached_bio cache artist out)
    else if name == "Discogs".data then
      if key.isEmpty then fetch_artist_bio_go artist cache rest
      else
        let out := match raw with
          | .discogs r => fetch_discogs_extract r
          | _ => []
        if out.isEmpty then fetch_artist_bio_go artist cache rest
        else (out, set_cached_bio cache artist out)
    else if name == "Genius".data then
      if key.isEmpty then fetch_artist_bio_go artist cache rest
      else
        let out := match raw with
          | .genius r => fetch_genius_extract r
          | _ => []
        if out.isEmpty then fetch_artist_bio_go artist cache rest
        else (out, set_cached_bio cache artist out)
    else fetch_artist_bio_go artist cache rest

/-- `fetch_artist_bio(artist, state)`: empty/placeholder guard, cache-first
lookup, then the cascading provider loop over the sorted provider list.
`raws` supplies the network response of each provider call in loop order. -/
def fetch_artist_bio (artist : List Char) (state : AdminState) (cache : BioCache)
    (raws : List ProviderRaw) : List Char × BioCache :=
  let a := pyStrip artist
  if a.isEmpty || a == "—".data then ("—".data, cache)
  else
    match get_cached_bio cache a with
    | some (some bio) => (bio, cache)
    | _ => fetch_artist_bio_go a cache ((sort_providers state.metadata_providers).zip raws)

/-- No two adjacent whitespace characters. -/
def noAdjacentWs : List Char → Bool
  | [] => true
  | [_] => true
  | a :: b :: rest => !(isPySpace a && isPySpace b) && noAdjacentWs (b :: rest)

/-- The shape every bio delivered by the resolver has: non-empty, at most
`MAX_BIO_CHARS` characters, internal whitespace collapsed. -/
def bioOK (s : List Char) : Bool :=
  !s.isEmpty && decide (s.length ≤ MAX_BIO_CHARS) && noAdjacentWs s

/-- Every bio already stored in the cache has the resolver shape (the claim's
assumption that cache entries were written only by this program). -/
def bioCacheOK (cache : BioCache) : Bool :=
  cache.all (fun e => match e.2 with | some b => bioOK b | none => true)

/-! ## Channel log trimming (`_trim_channel_log_if_needed`,
`app/ffmpeg_runner.py`).  File contents are byte lists (`List Nat`). -/

/-- `MAX_CHANNEL_LOG_BYTES = 2 * 1024 * 1024`. -/
def MAX_CHANNEL_LOG_BYTES : Nat := 2 * 1024 * 1024

/-- `TRIM_KEEP_BYTES = 1 * 1024 * 1024`. -/
def TRIM_KEEP_BYTES : Nat := 1 * 1024 * 1024

/-- `tail.find(b"\n")` followed by `tail[newline_at + 1:]` when found:
advance past the first newline (byte 10), else leave the window unchanged. -/
def advance_past_newline : List Nat → List Nat
  | [] => []
  | b :: rest =>
    if b == 10 then rest
    else if rest.contains 10 then advance_past_newline rest
    else b :: rest

/-- `_trim_channel_log_if_needed` on the file content. -/
def trim_channel_log_if_needed (content : List Nat) : List Nat :=
  if content.length ≤ MAX_CHANNEL_LOG_BYTES then content
  else if content.length ≤ TRIM_KEEP_BYTES then content
  else advance_past_newline (content.drop (content.length - TRIM_KEEP_BYTES))

/-! ## Now-playing sync loop (`app/now_playing.py`)

JSON documents are a small inductive; Python exceptions are `Except PyErr`.
Each external effect (HTTP fetch, metadata resolution, art handling, file
writes) is an explicit outcome in an environment record, and the `try/except`
blocks of the source are translated as `Except` matches at the same places. -/

/-- The Python exceptions this model distinguishes. -/
inductive PyErr where
  | attributeError : PyErr
  | osError : PyErr
  | other : PyErr
deriving Repr, DecidableEq

/-- A JSON value. -/
inductive Json where
  | null : Json
  | bool (b : Bool) : Json
  | num (n : Int) : Json
  | str (s : String) : Json
  | arr (xs : List Json) : Json
  | obj (kvs : List (String × Json)) : Json

/-- Python truthiness of a JSON value. -/
def Json.truthy : Json → Bool
  | .null => false
  | .bool b => b
  | .num n => n != 0
  | .str s => !s.isEmpty
  | .arr xs => !xs.isEmpty
  | .obj kvs => !kvs.isEmpty

/-- Python `x or y` on JSON values. -/
def Json.orElse (a b : Json) : Json :=
  if a.truthy then a else b

/-- Python `d.get(k)`: `None` for a missing key, `AttributeError` when the
receiver is not a dict. -/
def Json.get? : Json → String → Except PyErr Json
  | .obj kvs, k =>
    .ok (match kvs.find? (fun p => p.1 == k) with
         | some p => p.2
         | none => .null)
  | _, _ => .error .attributeError

/-- Python `v.strip()` on a JSON value: `AttributeError` unless a string. -/
def Json.stripStr : Json → Except PyErr String
  | .str s => .ok (pyStripStr s)
  | _ => .error .attributeError

/-- The art-URL scan of `_parse_now_playing` over the candidate keys. -/
def findArtUrl (song : Json) : List String → Except PyErr String
  | [] => .ok ""
  | k :: rest => do
    let v ← song.get? k
    match v with
    | .str s =>
      if !(pyStripStr s).isEmpty then .ok (pyStripStr s) else findArtUrl song rest
    | .obj kvs => do
      let u1 ← Json.get? (.obj kvs) "url"
      let u2 ← Json.get? (.obj kvs) "#text"
      let u3 ← Json.get? (.obj kvs) "value"
      let u ← (u1.orElse (u2.orElse (u3.orElse (Json.str "")))).stripStr
      if !u.isEmpty then .ok u else findArtUrl song rest
    | _ => findArtUrl song rest

/-- The body of `_parse_now_playing` before its `except` clause. -/
def parse_now_playing_e (data : Json) : Except PyErr (String × String × String) := do
  let np0 ← data.get? "now_playing"
  let np := if np0.truthy then np0 else Json.obj []
  let song0 ← np.get? "song"
  let song := if song0.truthy then song0 else Json.obj []
  let t1 ← song.get? "title"
  let t2 ← song.get? "text"
  let tStr ← (t1.orElse (t2.orElse (Json.str ""))).stripStr
  let title := if tStr.isEmpty then "—" else tStr
  let a1 ← song.get? "artist"
  let aStr ← (a1.orElse (Json.str "")).stripStr
  let artist := if aStr.isEmpty then "—" else aStr
  let artUrl ← findArtUrl song ["art", "album_art", "artwork", "image"]
  return (title, artist, artUrl)

/-- `_parse_now_playing(data)`: any exception yields the placeholder triple. -/
def parse_now_playing (data : Json) : String × String × String :=
  match parse_now_playing_e data with
  | .ok r => r
  | .error _ => ("—", "—", "")

/-- Outcome of the HTTP GET of `_fetch_now_playing`. -/
inductive FetchOutcome where
  /-- The request itself raised (connection error, timeout, ...). -/
  | networkError : FetchOutcome
  /-- A response arrived with this status code and body. -/
  | httpResponse (code : Nat) (body : Json) : FetchOutcome
  /-- 2xx response whose body `r.json()` failed to parse. -/
  | badBody : FetchOutcome

/-- `_fetch_now_playing(station)`: `None` on any failure
(`raise_for_status` raises for status ≥ 400). -/
def fetch_now_playing : FetchOutcome → Option Json
  | .networkError => none
  | .badBody => none
  | .httpResponse code body => if 400 ≤ code then none else some body

/-- One cycle's external-effect outcomes for `write_now_playing_files`. -/
structure NowPlayingEnv where
  /-- `_station_for_channel` found a station. -/
  stationFound : Bool
  /-- Outcome of the now-playing HTTP GET. -/
  fetchOutcome : FetchOutcome
  /-- Outcome of `fetch_artist_bio` (its `await` may raise). -/
  bioResult : Except PyErr String
  /-- Outcome of `fetch_artist_image_url`. -/
  imageResult : Except PyErr String
  /-- Outcome of the art download/decode block: `ok resolved?`, or the raised
  exception that the block's `except` swallows. -/
  artBlock : Except PyErr Bool
  /-- Outcome of copying the bundled default logo (not inside a `try`). -/
  defaultArtCopy : Except PyErr Unit
  /-- Outcome of `stream_dir.mkdir(...)`. -/
  mkdirOk : Except PyErr Unit
  /-- Outcome of writing `song.txt`. -/
  writeSong : Except PyErr Unit
  /-- Outcome of writing `artist.txt`. -/
  writeArtist : Except PyErr Unit
  /-- Outcome of writing `bio.txt`. -/
  writeBio : Except PyErr Unit

/-- `write_now_playing_files(stream_dir, channel, state)`: returns the
`(title, artist)` pair, or the exception a bare file operation raised. The
`try/except` blocks around metadata resolution and the art download are
translated as `Except` matches exactly where the source has them. -/
def write_now_playing_files (env : NowPlayingEnv) : Except PyErr (String × String) :=
  if !env.stationFound then do
    env.mkdirOk
    env.writeSong
    env.writeArtist
    env.writeBio
    env.defaultArtCopy
    return ("—", "—")
  else do
    let dataOpt := fetch_now_playing env.fetchOutcome
    let (title, artist, _) :=
      match dataOpt with
      | some data => parse_now_playing data
      | none => ("—", "—", "")
    env.mkdirOk
    let _bio : String :=
      if !artist.isEmpty && artist != "—" then
        match env.bioResult with
        | .ok b => b
        | .error _ => "—"
      else "—"
    let artUrl : String :=
      if !artist.isEmpty && artist != "—" then
        match env.imageResult with
        | .ok u => u
        | .error _ => ""
      else ""
    let artResolved : Bool :=
      if !artUrl.isEmpty then
        match env.artBlock with
        | .ok resolved => resolved
        | .error _ => false
      else false
    (if !artResolved then env.defaultArtCopy else .ok ())
    env.writeSong
    env.writeArtist
    env.writeBio
    return (title, artist)

/-- One cycle's outcomes for the `now_playing_loop` body. -/
structure LoopEnv where
  /-- `load_state()` outcome; `ok true` = the channel id is in the loaded
  state, `ok false` = channel gone. -/
  loadState : Except PyErr Bool
  /-- Effects of this cycle's `write_now_playing_files` call. -/
  np : NowPlayingEnv
  /-- Outcome of the `on_song_change` callback (wrapped in its own
  `try/except`). -/
  songChange : Except PyErr Unit

/-- The body of one `now_playing_loop` iteration before the
`except Exception: pass` that guards it. -/
def now_playing_loop_body (env : LoopEnv) (prev : Option String × Option String) :
    Except PyErr (Option String × Option String) := do
  let found ← env.loadState
  if found then do
    let (title, artist) ← write_now_playing_files env.np
    let _ : Unit :=
      match env.songChange with
      | .ok u => u
      | .error _ => ()
    return (some title, some artist)
  else
    return prev

/-- One iteration of `now_playing_loop`: the body's exception is absorbed by
`except Exception: pass` and the previous cycle's memory survives. -/
def now_playing_loop_step (env : LoopEnv) (prev : Option String × Option String) :
    Option String × Option String :=
  match now_playing_loop_body env prev with
  | .ok next => next
  | .error _ => prev

/-! # Theorems -/

/-! ## Dictionary / set lemmas -/

theorem dictContains_dictPop [BEq κ] (k : κ) (d : List (κ × α)) :
    dictContains k (dictPop k d) = false := by
  induction d with
  | nil => rfl
  | cons p rest ih =>
    simp only [dictPop] at ih ⊢
    by_cases h : (p.1 == k)
    · have hb : (p.1 != k) = false := by simp [bne, h]
      simp only [List.filter_cons, hb, Bool.false_eq_true, if_false]
      exact ih
    · have hb : (p.1 != k) = true := by simp [bne, h]
      have h' : (p.1 == k) = false := by simp [h]
      simp only [List.filter_cons, hb, if_true, dictContains, List.any_cons, h',
        Bool.false_or]
      exact ih

theorem not_mem_setDiscard (k : String) (s : List String) : k ∉ setDiscard k s := by
  simp [setDiscard, List.mem_filter]

theorem contains_setDiscard (k : String) (s : List String) :
    (setDiscard k s).contains k = false := by
  have h := not_mem_setDiscard k s
  simpa using h

theorem countKey_eq_zero_of_not_contains [BEq κ] (k : κ) (d : List (κ × α))
    (h : dictContains k d = false) : countKey k d = 0 := by
  induction d with
  | nil => rfl
  | cons p rest ih =>
    simp only [dictContains, List.any_cons, Bool.or_eq_false_iff] at h
    simp only [countKey, List.filter_cons, h.1]
    exact ih h.2

theorem countKey_dictInsert_of_not_contains [BEq κ] [ReflBEq κ] (k : κ) (v : α)
    (d : List (κ × α)) (h : dictContains k d = false) :
    countKey k (dictInsert k v d) = 1 := by
  simp only [dictInsert, dictContains] at *
  rw [if_neg (by simp [h])]
  have h0 : countKey k d = 0 := countKey_eq_zero_of_not_contains k d h
  simp only [countKey, List.filter_append] at *
  simp [h0, List.length_eq_zero.mp h0]

/-! ## C1 -/

/-- C1: for a channel id reported running, `start_channel` returns success
immediately and leaves the supervisor state (process table, now-playing task
and stop-signal tables, watch-task table, stop-intent set) exactly as it was. -/
theorem C1_start_on_running_is_noop (channel_id : String) (state : AdminState)
    (spawn : Option Nat) (st : SupervisorState)
    (h : is_running st channel_id = true) :
    start_channel channel_id state spawn st = ("ok", st) := by
  simp [start_channel, h]

theorem C1_start_on_running_is_noop_witness :
    is_running ⟨[("ch1", 7)], [("ch1", 1)], [("ch1", 2)], [("ch1", 3)], [], []⟩ "ch1" = true ∧
    start_channel "ch1" ⟨[], [], []⟩ (some 9)
        ⟨[("ch1", 7)], [("ch1", 1)], [("ch1", 2)], [("ch1", 3)], [], []⟩ =
      ("ok", ⟨[("ch1", 7)], [("ch1", 1)], [("ch1", 2)], [("ch1", 3)], [], []⟩) :=
  ⟨by decide, C1_start_on_running_is_noop _ _ _ _ (by decide)⟩

/-! ## C2 -/

/-- C2: for a channel id that is not running, `start_channel` fails with the
specific reason — channel not found, channel disabled, or no ffmpeg profile —
and in each case leaves every supervisor table untouched (the returned state
is exactly the input state: nothing spawned, nothing registered). -/
theorem C2_start_failures_without_side_effects (channel_id : String)
    (state : AdminState) (spawn : Option Nat) (st : SupervisorState)
    (h : is_running st channel_id = false) :
    (state.channels.find? (fun c => c.id == channel_id) = none →
      start_channel channel_id state spawn st = ("error: channel not found", st)) ∧
    (∀ ch, state.channels.find? (fun c => c.id == channel_id) = some ch →
      ch.enabled = false →
      start_channel channel_id state spawn st = ("error: channel disabled", st)) ∧
    (∀ ch, state.channels.find? (fun c => c.id == channel_id) = some ch →
      ch.enabled = true → get_profile state ch.ffmpeg_profile_id = none →
      start_channel channel_id state spawn st = ("error: no ffmpeg profile", st)) := by
  refine ⟨fun hf => ?_, fun ch hf he => ?_, fun ch hf he hp => ?_⟩
  · simp [start_channel, h, hf]
  · simp [start_channel, h, hf, he]
  · simp [start_channel, start_single_channel, h, hf, he, hp]

theorem C2_start_failures_without_side_effects_witness :
    start_channel "nope" ⟨[], [], []⟩ (some 5) ⟨[], [], [], [], [], []⟩ =
      ("error: channel not found", ⟨[], [], [], [], [], []⟩) :=
  (C2_start_failures_without_side_effects "nope" ⟨[], [], []⟩ (some 5)
    ⟨[], [], [], [], [], []⟩ (by decide)).1 (by decide)

/-! ## C3 -/

/-- C3: `stop_channel` removes every per-channel supervisor entry (process
table, now-playing task and stop signal, watch task, stop-intent flag), so a
stop immediately followed by a successful start leaves exactly one registered
process for the channel. -/
theorem C3_stop_fully_unregisters_and_restart_is_unique (channel_id : String)
    (state : AdminState) (spawn : Option Nat) (st : SupervisorState) :
    noEntriesFor channel_id (stop_channel channel_id st) = true ∧
    ((start_channel channel_id state spawn (stop_channel channel_id st)).1 = "ok" →
      countKey channel_id
        (start_channel channel_id state spawn (stop_channel channel_id st)).2.running = 1) := by
  have hclean : noEntriesFor channel_id (stop_channel channel_id st) = true := by
    unfold stop_channel
    by_cases hrun : dictContains channel_id st.running
    · simp [hrun, noEntriesFor, dictContains_dictPop, contains_setDiscard,
        not_mem_setDiscard]
    · simp [hrun, noEntriesFor, dictContains_dictPop, contains_setDiscard,
        not_mem_setDiscard, setAdd]
  refine ⟨hclean, ?_⟩
  set st' := stop_channel channel_id st with hst'
  have hparts := hclean
  simp only [noEntriesFor, Bool.and_eq_true, Bool.not_eq_true'] at hparts
  have hnotrun : is_running st' channel_id = false := hparts.1.1.1.1
  simp only [start_channel, hnotrun, Bool.false_eq_true, if_false]
  cases hfind : state.channels.find? (fun c => c.id == channel_id) with
  | none => intro hok; simp at hok
  | some ch =>
    by_cases hen : ch.enabled
    · simp only [hen, Bool.not_true, Bool.false_eq_true, if_false, start_single_channel]
      cases hp : get_profile state ch.ffmpeg_profile_id with
      | none => intro hok; simp at hok
      | some prof =>
        cases spawn with
        | none => intro hok; simp at hok
        | some pid =>
          intro hok
          have hcid : ch.id = channel_id := by
            have := List.find?_some hfind
            simpa using this
          simp only [hcid]
          exact countKey_dictInsert_of_not_contains channel_id pid st'.running hparts.1.1.1.1
    · simp only [hen, Bool.not_false, if_true]
      intro hok
      simp at hok

theorem C3_stop_fully_unregisters_and_restart_is_unique_witness :
    countKey "c"
      (start_channel "c" ⟨[⟨"c", true, "p"⟩], [⟨"p"⟩], []⟩ (some 4)
        (stop_channel "c"
          ⟨[("c", 1)], [("c", 2)], [("c", 3)], [("c", 4)], ["c"], []⟩)).2.running = 1 :=
  (C3_stop_fully_unregisters_and_restart_is_unique "c" ⟨[⟨"c", true, "p"⟩], [⟨"p"⟩], []⟩
    (some 4) ⟨[("c", 1)], [("c", 2)], [("c", 3)], [("c", 4)], ["c"], []⟩).2 (by decide)

/-! ## C4 -/

/-- C4: when the encoder exits, a set stop-intent flag suppresses any
auto-restart; otherwise the watch task sleeps the base delay of 15 s — or the
escalated 60 s when a previous auto-restart of the channel happened less than
120 s before — and then attempts exactly one restart, abandoning it when the
channel is already running again, no longer exists, or is disabled. -/
theorem C4_watch_exit_restart_policy (channel_id : String) (st : SupervisorState)
    (env : WatchEnv) :
    (st.stopRequested.contains channel_id = true →
      (watch_ffmpeg_exit channel_id st env).1 = .stopIntent) ∧
    (st.stopRequested.contains channel_id = false →
      ((∃ t, dictGet channel_id st.lastAutoRestart = some t ∧ env.nowAtExit - t < 120) →
        (watch_ffmpeg_exit channel_id st env).1.delay? = some 60) ∧
      ((∀ t, dictGet channel_id st.lastAutoRestart = some t → 120 ≤ env.nowAtExit - t) →
        (watch_ffmpeg_exit channel_id st env).1.delay? = some 15) ∧
      ((watch_ffmpeg_exit channel_id st env).1.attempts =
        if dictContains channel_id env.stAtWake.running = false ∧
            ∃ ch, env.stateAtWake.channels.find? (fun c => c.id == channel_id) = some ch ∧
              ch.enabled = true
         then 1 else 0)) := by
  constructor
  · intro hstop
    simp only [watch_ffmpeg_exit]
    rw [hstop]
    simp
  · intro hstop
    have hdelay : ∀ d : Nat,
        (match dictGet channel_id st.lastAutoRestart with
          | some t => if env.nowAtExit - t < 120 then 60 else 15
          | none => 15) = d →
        (watch_ffmpeg_exit channel_id st env).1.delay? = some d := by
      intro d hd
      simp only [watch_ffmpeg_exit]
      rw [hstop]
      simp only [Bool.false_eq_true, if_false]
      rw [hd]
      cases hrun : dictContains channel_id env.stAtWake.running with
      | true => simp [WatchOutcome.delay?]
      | false =>
        simp only [Bool.false_eq_true, if_false]
        cases hfind : env.stateAtWake.channels.find? (fun c => c.id == channel_id) with
        | none => simp [WatchOutcome.delay?]
        | some ch =>
          cases hen : ch.enabled with
          | false => simp [WatchOutcome.delay?, hen]
          | true =>
            rcases hss : start_single_channel ch env.stateAtWake env.spawn
              { env.stAtWake with
                lastAutoRestart :=
                  dictInsert channel_id env.nowAtRestart env.stAtWake.lastAutoRestart }
              with ⟨res, st4⟩
            simp [hss, WatchOutcome.delay?, hen]
    refine ⟨?_, ?_, ?_⟩
    · rintro ⟨t, ht, hlt⟩
      exact hdelay 60 (by rw [ht]; simp [hlt])
    · intro hge
      refine hdelay 15 ?_
      cases ht : dictGet channel_id st.lastAutoRestart with
      | none => rfl
      | some t =>
        have := hge t ht
        simp [Nat.not_lt.mpr this]
    · simp only [watch_ffmpeg_exit]
      rw [hstop]
      simp only [Bool.false_eq_true, if_false]
      cases hrun : dictContains channel_id env.stAtWake.running with
      | true => simp [WatchOutcome.attempts]
      | false =>
        simp only [Bool.false_eq_true, if_false]
        cases hfind : env.stateAtWake.channels.find? (fun c => c.id == channel_id) with
        | none => simp [WatchOutcome.attempts]
        | some ch =>
          cases hen : ch.enabled with
          | false => simp [WatchOutcome.attempts, hen]
          | true =>
            rcases hss : start_single_channel ch env.stateAtWake env.spawn
              { env.stAtWake with
                lastAutoRestart :=
                  dictInsert channel_id env.nowAtRestart env.stAtWake.lastAutoRestart }
              with ⟨res, st4⟩
            simp [hss, WatchOutcome.attempts, hen]

theorem C4_watch_exit_restart_policy_witness :
    (watch_ffmpeg_exit "c"
      ⟨[("c", 1)], [], [], [], [], [("c", 100)]⟩
      ⟨150, ⟨[], [], [], [], [], []⟩, ⟨[⟨"c", true, "p"⟩], [⟨"p"⟩], []⟩, 200, some 9⟩).1.delay?
      = some 60 ∧
    (watch_ffmpeg_exit "c"
      ⟨[("c", 1)], [], [], [], [], [("c", 100)]⟩
      ⟨150, ⟨[], [], [], [], [], []⟩, ⟨[⟨"c", true, "p"⟩], [⟨"p"⟩], []⟩, 200, some 9⟩).1.attempts
      = 1 := by
  have h := C4_watch_exit_restart_policy "c"
    ⟨[("c", 1)], [], [], [], [], [("c", 100)]⟩
    ⟨150, ⟨[], [], [], [], [], []⟩, ⟨[⟨"c", true, "p"⟩], [⟨"p"⟩], []⟩, 200, some 9⟩
  have h2 := h.2 (by decide)
  refine ⟨h2.1 ⟨100, by decide, by decide⟩, ?_⟩
  rw [h2.2.2]
  decide

/-! ## C5 -/

/-- C5: with the template-editor provenance flag set, a coordinate at most 100
is scaled as a percentage of the 1920×1080 canvas (x by 19.2, y by 10.8, so
(50, 50) resolves to (960, 540)), while a value greater than 100 — and every
value when the flag is unset — passes through unchanged. -/
theorem C5_overlay_coordinate_resolution :
    to_px_x true 50 = 960 ∧ to_px_y true 50 = 540 ∧
    (∀ x : Int, x ≤ 100 → to_px_x true x = (x * 96).tdiv 5) ∧
    (∀ y : Int, y ≤ 100 → to_px_y true y = (y * 54).tdiv 5) ∧
    (∀ x : Int, 100 < x → to_px_x true x = x ∧ to_px_y true x = x) ∧
    (∀ x : Int, to_px_x false x = x ∧ to_px_y false x = x) ∧
    to_px_x false 960 = 960 := by
  refine ⟨by decide, by decide, ?_, ?_, ?_, ?_, by decide⟩
  · intro x h1
    simp [to_px_x, h1]
  · intro y h1
    simp [to_px_y, h1]
  · intro x h
    have h' : ¬ (x : Int) ≤ 100 := by omega
    exact ⟨by simp [to_px_x, h'], by simp [to_px_y, h']⟩
  · intro x
    exact ⟨by simp [to_px_x], by simp [to_px_y]⟩

theorem C5_overlay_coordinate_resolution_witness :
    to_px_x true 25 = (25 * 96 : Int).tdiv 5 ∧ to_px_x true 25 = 480 :=
  ⟨(C5_overlay_coordinate_resolution.2.2.1) 25 (by decide), by decide⟩

/-! ## C6 -/

/-- C6: the type-only bio heuristic rejects `"Group (US)"` and accepts
`"An American rock band formed in 1985"`; a MusicBrainz result holding only an
entity classification plus a two-letter country code therefore yields no bio,
and the provider cascade continues to the next provider's result. -/
theorem C6_type_only_bio_heuristic :
    is_type_only_bio "Group (US)".data = true ∧
    is_type_only_bio "An American rock band formed in 1985".data = false ∧
    fetch_musicbrainz_extract (some "Group".data) none (some "US".data) = [] ∧
    (fetch_artist_bio_go "Nirvana".data []
      [(⟨"MusicBrainz", "", ""⟩, .mb (some "Group".data) none (some "US".data)),
       (⟨"TheAudioDB", "", ""⟩, .adb (some "An American rock band formed in 1985".data))]).1
      = "An American rock band formed in 1985".data := by
  refine ⟨by decide, by decide, by decide, by decide⟩

/-! ## C7 -/

theorem artist_key_eq_specNormalizedName (l : List Char) :
    artist_key l = specNormalizedName l := by
  cases l with
  | nil => rfl
  | cons c cs => rfl

/-- C7: artist names equal after case folding, trimming and collapsing
internal whitespace runs produce the same cache key, so cache reads and
writes address the same entry. -/
theorem C7_cache_key_normalization (a b : List Char)
    (h : specNormalizedName a = specNormalizedName b) :
    artist_key a = artist_key b ∧
    (∀ index : BioCache, get_cached_bio index a = get_cached_bio index b) ∧
    (∀ index : BioCache, ∀ bio, set_cached_bio index a bio = set_cached_bio index b bio) := by
  have hk : artist_key a = artist_key b := by
    rw [artist_key_eq_specNormalizedName, artist_key_eq_specNormalizedName, h]
  exact ⟨hk, fun index => by simp [get_cached_bio, hk],
    fun index bio => by simp [set_cached_bio, hk]⟩

theorem C7_cache_key_normalization_witness :
    specNormalizedName "Nirvana".data = specNormalizedName " nirvana".data ∧
    get_cached_bio [("nirvana".data, some "Seattle grunge band".data)] "Nirvana".data =
      get_cached_bio [("nirvana".data, some "Seattle grunge band".data)] " nirvana".data :=
  ⟨by decide, (C7_cache_key_normalization "Nirvana".data " nirvana".data (by decide)).2.1 _⟩

/-! ## C8 -/

theorem getLast?_cons_of_some (b : α) {q : List α} {x : α} (h : q.getLast? = some x) :
    (b :: q).getLast? = some x := by
  cases q with
  | nil => simp at h
  | cons z zs => rw [List.getLast?_cons_cons]; exact h

theorem getLast?_append_of_some (p : List α) {q : List α} {x : α}
    (h : q.getLast? = some x) : (p ++ q).getLast? = some x := by
  induction p with
  | nil => simpa using h
  | cons a t ih => exact getLast?_cons_of_some a ih

theorem mem_of_getLast?_eq_some {l : List α} {x : α} (h : l.getLast? = some x) :
    x ∈ l := by
  induction l with
  | nil => simp at h
  | cons a t ih =>
    cases t with
    | nil => simp only [List.getLast?_singleton, Option.some.injEq] at h; simp [h]
    | cons b ts =>
      rw [List.getLast?_cons_cons] at h
      exact List.mem_cons_of_mem _ (ih h)

theorem advance_past_newline_spec (l : List Nat) :
    (advance_past_newline l).length ≤ l.length ∧
    (∃ q, l = q ++ advance_past_newline l) ∧
    (l.contains 10 = true →
      ∃ q, l = q ++ advance_past_newline l ∧ q.getLast? = some 10) := by
  induction l with
  | nil =>
    refine ⟨Nat.le_refl _, ⟨[], rfl⟩, fun h => ?_⟩
    simp at h
  | cons b rest ih =>
    by_cases hb : b = 10
    · subst hb
      have hr : advance_past_newline (10 :: rest) = rest := by
        simp [advance_past_newline]
      refine ⟨by simp [hr], ⟨[10], by simp [hr]⟩, fun _ => ⟨[10], by simp [hr], rfl⟩⟩
    · have hbne : (b == 10) = false := by simp [hb]
      by_cases hc : rest.contains 10
      · have hcm : (10 : Nat) ∈ rest := by simpa using hc
        have hr : advance_past_newline (b :: rest) = advance_past_newline rest := by
          simp [advance_past_newline, hbne, hcm]
        obtain ⟨q, hq, hqlast⟩ := ih.2.2 hc
        refine ⟨by simp [hr]; exact Nat.le_succ_of_le ih.1, ?_, fun _ => ?_⟩
        · exact ⟨b :: q, by rw [hr]; simp [← hq]⟩
        · exact ⟨b :: q, by rw [hr]; simp [← hq], getLast?_cons_of_some b hqlast⟩
      · have hcm : (10 : Nat) ∉ rest := by simpa using hc
        have hr : advance_past_newline (b :: rest) = b :: rest := by
          simp [advance_past_newline, hbne, hcm]
        refine ⟨by simp [hr], ⟨[], by simp [hr]⟩, fun hcont => ?_⟩
        exfalso
        have hmem : (10 : Nat) ∈ b :: rest := by simpa using hcont
        rcases List.mem_cons.mp hmem with h10 | h10
        · exact hb h10.symm
        · exact hcm h10

/-- C8 (amended): content at or below the 2 MiB maximum is left unchanged;
larger content is trimmed to at most the 1 MiB target and is a suffix of the
original, and whenever the retained 1 MiB window contains a newline the
result starts immediately after one (no partial first line).  (When the
window holds no newline at all, the raw window is kept unchanged.) -/
theorem C8_trim_amended (content : List Nat) :
    (content.length ≤ MAX_CHANNEL_LOG_BYTES → trim_channel_log_if_needed content = content) ∧
    (MAX_CHANNEL_LOG_BYTES < content.length →
      (trim_channel_log_if_needed content).length ≤ TRIM_KEEP_BYTES ∧
      (∃ pre, content = pre ++ trim_channel_log_if_needed content) ∧
      ((content.drop (content.length - TRIM_KEEP_BYTES)).contains 10 = true →
        ∃ pre, content = pre ++ trim_channel_log_if_needed content ∧
          pre.getLast? = some 10)) := by
  constructor
  · intro h
    simp [trim_channel_log_if_needed, h]
  · intro h
    have hnle : ¬ content.length ≤ MAX_CHANNEL_LOG_BYTES := by omega
    have hnle2 : ¬ content.length ≤ TRIM_KEEP_BYTES := by
      have : TRIM_KEEP_BYTES < MAX_CHANNEL_LOG_BYTES := by
        simp [TRIM_KEEP_BYTES, MAX_CHANNEL_LOG_BYTES]
      omega
    have htr : trim_channel_log_if_needed content =
        advance_past_newline (content.drop (content.length - TRIM_KEEP_BYTES)) := by
      simp [trim_channel_log_if_needed, hnle, hnle2]
    have hlen : (content.drop (content.length - TRIM_KEEP_BYTES)).length = TRIM_KEEP_BYTES := by
      rw [List.length_drop]; omega
    have hspec := advance_past_newline_spec (content.drop (content.length - TRIM_KEEP_BYTES))
    refine ⟨?_, ?_, ?_⟩
    · rw [htr]
      exact le_trans hspec.1 (le_of_eq hlen)
    · obtain ⟨q, hq⟩ := hspec.2.1
      refine ⟨content.take (content.length - TRIM_KEEP_BYTES) ++ q, ?_⟩
      rw [htr, List.append_assoc, ← hq, List.take_append_drop]
    · intro hcont
      obtain ⟨q, hq, hqlast⟩ := hspec.2.2 hcont
      refine ⟨content.take (content.length - TRIM_KEEP_BYTES) ++ q, ?_, ?_⟩
      · rw [htr, List.append_assoc, ← hq, List.take_append_drop]
      · exact getLast?_append_of_some _ hqlast

theorem C8_trim_amended_witness :
    trim_channel_log_if_needed [97] = [97] :=
  (C8_trim_amended [97]).1 (by decide)

/-- C8 counterexample: a log of 2 MiB + 1 bytes holding no newline at all is
over the maximum, yet its trimmed form does not begin immediately after a
newline — the claim's "always starts at a line boundary" fails on it. -/
theorem C8_trim_counterexample :
    MAX_CHANNEL_LOG_BYTES < (List.replicate (MAX_CHANNEL_LOG_BYTES + 1) (97 : Nat)).length ∧
    ¬ ∃ pre, List.replicate (MAX_CHANNEL_LOG_BYTES + 1) (97 : Nat)
          = pre ++ trim_channel_log_if_needed (List.replicate (MAX_CHANNEL_LOG_BYTES + 1) 97)
        ∧ pre.getLast? = some 10 := by
  constructor
  · simp
  · rintro ⟨pre, hpre, hlast⟩
    have h10 : (10 : Nat) ∈ pre := mem_of_getLast?_eq_some hlast
    have h10' : (10 : Nat) ∈ List.replicate (MAX_CHANNEL_LOG_BYTES + 1) (97 : Nat) := by
      rw [hpre]
      exact List.mem_append_left _ h10
    have := List.eq_of_mem_replicate h10'
    omega

/-! ## C9 -/

theorem except_bind_ok {ε α β : Type} {x : Except ε α} {f : α → Except ε β} {b : β}
    (h : x >>= f = .ok b) : ∃ a, x = .ok a ∧ f a = .ok b := by
  cases x with
  | error e => simp [Bind.bind, Except.bind] at h
  | ok a => exact ⟨a, rfl, by simpa [Bind.bind, Except.bind] using h⟩

/-- C9: every failed now-playing fetch (network error, non-success status,
unparsable body) and every malformed or absent response document yields the
em-dash placeholders for title and artist rather than an error, and the loop
body's exceptions — from the fetch, metadata resolution, or the file writes —
are absorbed so the loop proceeds to its next cycle with its previous state. -/
theorem C9_now_playing_failures_absorbed :
    (∀ env : NowPlayingEnv, env.stationFound = true →
      fetch_now_playing env.fetchOutcome = none →
      ∀ t a, write_now_playing_files env = .ok (t, a) → t = "—" ∧ a = "—") ∧
    (∀ env : NowPlayingEnv, ∀ body : Json, env.stationFound = true →
      fetch_now_playing env.fetchOutcome = some body →
      (∃ err, parse_now_playing_e body = .error err) →
      ∀ t a, write_now_playing_files env = .ok (t, a) → t = "—" ∧ a = "—") ∧
    parse_now_playing (Json.obj []) = ("—", "—", "") ∧
    fetch_now_playing .networkError = none ∧
    fetch_now_playing .badBody = none ∧
    (∀ code body, 400 ≤ code → fetch_now_playing (.httpResponse code body) = none) ∧
    (∀ env prev,
      (∃ e, now_playing_loop_body env prev = .error e ∧
        now_playing_loop_step env prev = prev) ∨
      (∃ next, now_playing_loop_body env prev = .ok next ∧
        now_playing_loop_step env prev = next)) := by
  have habsorb : ∀ env : NowPlayingEnv, env.stationFound = true →
      (match fetch_now_playing env.fetchOutcome with
        | some data => parse_now_playing data
        | none => ("—", "—", "")) = ("—", "—", "") →
      ∀ t a, write_now_playing_files env = .ok (t, a) → t = "—" ∧ a = "—" := by
    intro env hsf hparse t a hok
    simp only [write_now_playing_files, hsf, Bool.not_true, Bool.false_eq_true, if_false,
      hparse] at hok
    obtain ⟨u1, h1, hok⟩ := except_bind_ok hok
    obtain ⟨u2, h2, hok⟩ := except_bind_ok hok
    obtain ⟨u3, h3, hok⟩ := except_bind_ok hok
    obtain ⟨u4, h4, hok⟩ := except_bind_ok hok
    obtain ⟨u5, h5, hok⟩ := except_bind_ok hok
    simp only [pure, Except.pure, Except.ok.injEq, Prod.mk.injEq] at hok
    exact ⟨hok.1.symm, hok.2.symm⟩
  refine ⟨?_, ?_, ?_, rfl, rfl, ?_, ?_⟩
  · intro env hsf hfetch t a hok
    exact habsorb env hsf (by rw [hfetch]) t a hok
  · intro env body hsf hfetch herr t a hok
    obtain ⟨err, herr⟩ := herr
    refine habsorb env hsf ?_ t a hok
    rw [hfetch]
    simp [parse_now_playing, herr]
  · rfl
  · intro code body h
    simp [fetch_now_playing, h]
  · intro env prev
    cases h : now_playing_loop_body env prev with
    | error e => exact Or.inl ⟨e, rfl, by simp [now_playing_loop_step, h]⟩
    | ok next => exact Or.inr ⟨next, rfl, by simp [now_playing_loop_step, h]⟩

theorem C9_now_playing_failures_absorbed_witness :
    write_now_playing_files
      ⟨true, .networkError, .ok "B", .ok "", .ok false, .ok (), .ok (), .ok (), .ok (), .ok ()⟩
      = .ok ("—", "—") ∧
    (("—" : String) = "—" ∧ ("—" : String) = "—") :=
  ⟨rfl,
    C9_now_playing_failures_absorbed.1
      ⟨true, .networkError, .ok "B", .ok "", .ok false, .ok (), .ok (), .ok (), .ok (), .ok ()⟩
      rfl rfl "—" "—" rfl⟩

/-! ## C10: lemmas about whitespace collapsing and truncation -/

theorem collapseWsAux_true_head (l : List Char) (c : Char)
    (h : (collapseWsAux true l).head? = some c) : isPySpace c = false := by
  induction l with
  | nil => simp [collapseWsAux] at h
  | cons a rest ih =>
    by_cases ha : isPySpace a
    · rw [show collapseWsAux true (a :: rest) = collapseWsAux true rest by
        simp [collapseWsAux, ha]] at h
      exact ih h
    · rw [show collapseWsAux true (a :: rest) = a :: collapseWsAux false rest by
        simp [collapseWsAux, ha]] at h
      simp only [List.head?_cons, Option.some.injEq] at h
      subst h
      simpa using ha

theorem noAdjacentWs_collapseWsAux (l : List Char) :
    ∀ flag, noAdjacentWs (collapseWsAux flag l) = true := by
  induction l with
  | nil => intro flag; rfl
  | cons a rest ih =>
    intro flag
    by_cases ha : isPySpace a
    · cases flag with
      | true =>
        rw [show collapseWsAux true (a :: rest) = collapseWsAux true rest by
          simp [collapseWsAux, ha]]
        exact ih true
      | false =>
        rw [show collapseWsAux false (a :: rest) = ' ' :: collapseWsAux true rest by
          simp [collapseWsAux, ha]]
        cases hX : collapseWsAux true rest with
        | nil => rfl
        | cons x xs =>
          have hx : isPySpace x = false :=
            collapseWsAux_true_head rest x (by rw [hX]; rfl)
          have hnA : noAdjacentWs (x :: xs) = true := by rw [← hX]; exact ih true
          simp [noAdjacentWs, hx, hnA]
    · have ha' : isPySpace a = false := by simpa using ha
      rw [show collapseWsAux flag (a :: rest) = a :: collapseWsAux false rest by
        cases flag <;> simp [collapseWsAux, ha]]
      cases hX : collapseWsAux false rest with
      | nil => rfl
      | cons x xs =>
        have hnA : noAdjacentWs (x :: xs) = true := by rw [← hX]; exact ih false
        simp [noAdjacentWs, ha', hnA]

theorem noAdjacentWs_collapseWs (l : List Char) : noAdjacentWs (collapseWs l) = true :=
  noAdjacentWs_collapseWsAux l false

theorem noAdjacentWs_take (l : List Char) :
    ∀ n, noAdjacentWs l = true → noAdjacentWs (l.take n) = true := by
  induction l with
  | nil => intro n _; simp [noAdjacentWs]
  | cons a t ih =>
    intro n h
    cases n with
    | zero => rfl
    | succ m =>
      cases t with
      | nil => simp [noAdjacentWs, List.take_nil]
      | cons b ts =>
        simp only [noAdjacentWs, Bool.and_eq_true] at h
        cases m with
        | zero => rfl
        | succ k =>
          have htail : noAdjacentWs ((b :: ts).take (k + 1)) = true := ih (k + 1) h.2
          simp only [List.take_succ_cons]
          simp only [List.take_succ_cons] at htail
          simp [noAdjacentWs, h.1, htail]

theorem noAdjacentWs_append_single (l : List Char) (c : Char)
    (hc : isPySpace c = false) :
    noAdjacentWs l = true → noAdjacentWs (l ++ [c]) = true := by
  induction l with
  | nil => intro _; simp [noAdjacentWs]
  | cons a t ih =>
    intro h
    cases t with
    | nil => simp [noAdjacentWs, hc]
    | cons b ts =>
      simp only [noAdjacentWs, Bool.and_eq_true] at h
      have := ih h.2
      simp only [List.cons_append] at *
      simp [noAdjacentWs, h.1, this]

theorem rsplitBeforeLastSpace_isTake (l : List Char) :
    ∃ k, rsplitBeforeLastSpace l = l.take k := by
  induction l with
  | nil => exact ⟨0, rfl⟩
  | cons c rest ih =>
    by_cases hc : rest.contains ' '
    · obtain ⟨k, hk⟩ := ih
      have hmem : ' ' ∈ rest := by simpa using hc
      refine ⟨k + 1, ?_⟩
      simp [rsplitBeforeLastSpace, hmem, hk]
    · have hmem : ' ' ∉ rest := by simpa using hc
      by_cases hsp : c == ' '
      · exact ⟨0, by simp [rsplitBeforeLastSpace, hmem, hsp]⟩
      · exact ⟨rest.length + 1, by simp [rsplitBeforeLastSpace, hmem, hsp]⟩

theorem dropWhile_head_not (p : α → Bool) (l : List α) (c : α)
    (h : (l.dropWhile p).head? = some c) : p c = false := by
  induction l with
  | nil => simp at h
  | cons a t ih =>
    by_cases ha : p a
    · rw [List.dropWhile_cons_of_pos ha] at h
      exact ih h
    · rw [List.dropWhile_cons_of_neg ha] at h
      simp only [List.head?_cons, Option.some.injEq] at h
      subst h
      simpa using ha

theorem getLast?_dropWhile_of_ne_nil (p : α → Bool) (l : List α)
    (h : l.dropWhile p ≠ []) : (l.dropWhile p).getLast? = l.getLast? := by
  cases hg : (l.dropWhile p).getLast? with
  | none => exact absurd (List.getLast?_eq_none_iff.mp hg) h
  | some x =>
    rw [← List.takeWhile_append_dropWhile (p := p) (l := l)]
    exact (getLast?_append_of_some _ hg).symm

theorem pyStrip_head_not_space (l : List Char) (c : Char)
    (h : (pyStrip l).head? = some c) : isPySpace c = false := by
  unfold pyStrip at h
  rw [List.head?_reverse] at h
  have hne : (l.dropWhile isPySpace).reverse.dropWhile isPySpace ≠ [] := by
    intro hnil
    rw [hnil] at h
    simp at h
  rw [getLast?_dropWhile_of_ne_nil _ _ hne, List.getLast?_reverse] at h
  exact dropWhile_head_not isPySpace _ c h

theorem collapseWs_ne_nil (l : List Char) (hl : l ≠ [])
    (hh : ∀ c, l.head? = some c → isPySpace c = false) : collapseWs l ≠ [] := by
  cases l with
  | nil => exact absurd rfl hl
  | cons a t =>
    have ha : isPySpace a = false := hh a rfl
    simp [collapseWs, collapseWsAux, ha]

theorem truncate_shape (s0 : List Char) :
    truncate MAX_BIO_CHARS s0 = [] ∨ bioOK (truncate MAX_BIO_CHARS s0) = true := by
  by_cases he : (pyStrip s0).isEmpty = true
  · left
    simp [truncate, he]
  · right
    have he' : (pyStrip s0).isEmpty = false := by simpa using he
    have hXnA : noAdjacentWs (collapseWs (pyStrip s0)) = true := noAdjacentWs_collapseWs _
    have hXne : collapseWs (pyStrip s0) ≠ [] :=
      collapseWs_ne_nil _ (by simpa using he) (pyStrip_head_not_space s0)
    have hdots : isPySpace '…' = false := by decide
    have hM : MAX_BIO_CHARS = 200 := rfl
    simp only [truncate, he', Bool.false_eq_true, if_false]
    set X := collapseWs (pyStrip s0) with hX
    by_cases hlen : X.length ≤ MAX_BIO_CHARS
    · rw [if_pos hlen]
      simp [bioOK, List.isEmpty_iff, hXne, hlen, hXnA]
    · rw [if_neg hlen]
      by_cases hsp : (X.take MAX_BIO_CHARS).contains ' ' = true
      · rw [if_pos hsp]
        obtain ⟨k, hk⟩ := rsplitBeforeLastSpace_isTake (X.take (MAX_BIO_CHARS - 1))
        have hl0 : (X.take (MAX_BIO_CHARS - 1)).length ≤ MAX_BIO_CHARS - 1 :=
          List.length_take_le _ _
        have hl1 : (rsplitBeforeLastSpace (X.take (MAX_BIO_CHARS - 1))).length ≤
            MAX_BIO_CHARS - 1 := by
          rw [hk]
          simp only [List.length_take] at *
          omega
        have hnA : noAdjacentWs (rsplitBeforeLastSpace (X.take (MAX_BIO_CHARS - 1))) = true := by
          rw [hk]
          exact noAdjacentWs_take _ k (noAdjacentWs_take X (MAX_BIO_CHARS - 1) hXnA)
        have hfin := noAdjacentWs_append_single _ '…' hdots hnA
        simp only [bioOK, Bool.and_eq_true]
        refine ⟨⟨?_, ?_⟩, hfin⟩
        · simp
        · simp only [List.length_append, List.length_singleton, decide_eq_true_eq]
          rw [hM] at hl1 ⊢
          omega
      · rw [if_neg hsp]
        have hl1 : (X.take (MAX_BIO_CHARS - 1)).length ≤ MAX_BIO_CHARS - 1 :=
          List.length_take_le _ _
        have hnA : noAdjacentWs (X.take (MAX_BIO_CHARS - 1)) = true :=
          noAdjacentWs_take X (MAX_BIO_CHARS - 1) hXnA
        have hfin := noAdjacentWs_append_single _ '…' hdots hnA
        simp only [bioOK, Bool.and_eq_true]
        refine ⟨⟨?_, ?_⟩, hfin⟩
        · simp
        · simp only [List.length_append, List.length_singleton, decide_eq_true_eq]
          rw [hM] at hl1 ⊢
          omega

theorem bioOK_truncate_of_ne_nil {x : List Char}
    (h : truncate MAX_BIO_CHARS x ≠ []) : bioOK (truncate MAX_BIO_CHARS x) = true :=
  (truncate_shape x).resolve_left h

theorem mb_extract_shape (t d c : Option (List Char))
    (h : fetch_musicbrainz_extract t d c ≠ []) :
    bioOK (fetch_musicbrainz_extract t d c) = true := by
  simp only [fetch_musicbrainz_extract] at h ⊢
  split_ifs at h ⊢ with h1 h2
  · exact absurd rfl h
  · exact absurd rfl h
  · exact bioOK_truncate_of_ne_nil h

theorem adb_extract_shape (r : Option (List Char))
    (h : fetch_theaudiodb_extract r ≠ []) :
    bioOK (fetch_theaudiodb_extract r) = true := by
  cases r with
  | none => exact absurd rfl h
  | some v =>
    simp only [fetch_theaudiodb_extract] at h ⊢
    split_ifs at h ⊢ with h1
    · exact absurd rfl h
    · exact bioOK_truncate_of_ne_nil h

theorem lastfm_extract_shape (r : Option (List Char))
    (h : fetch_lastfm_extract r ≠ []) :
    bioOK (fetch_lastfm_extract r) = true := by
  cases r with
  | none => exact absurd rfl h
  | some v =>
    simp only [fetch_lastfm_extract] at h ⊢
    split_ifs at h ⊢ with h1
    · exact absurd rfl h
    · exact bioOK_truncate_of_ne_nil h

theorem discogs_extract_shape (r : Option (List Char))
    (h : fetch_discogs_extract r ≠ []) :
    bioOK (fetch_discogs_extract r) = true := by
  cases r with
  | none => exact absurd rfl h
  | some v =>
    simp only [fetch_discogs_extract] at h ⊢
    split_ifs at h ⊢ with h1
    · exact absurd rfl h
    · exact bioOK_truncate_of_ne_nil h

theorem genius_extract_shape (r : Option (List Char))
    (h : fetch_genius_extract r ≠ []) :
    bioOK (fetch_genius_extract r) = true := by
  cases r with
  | none => exact absurd rfl h
  | some v =>
    simp only [fetch_genius_extract] at h ⊢
    split_ifs at h ⊢ with h1
    · exact absurd rfl h
    · exact bioOK_truncate_of_ne_nil h

set_option maxHeartbeats 1000000 in
theorem fetch_artist_bio_go_shape (artist : List Char) :
    ∀ (l : List (MetadataProvider × ProviderRaw)) (cache : BioCache),
      bioOK (fetch_artist_bio_go artist cache l).1 = true := by
  intro l
  induction l with
  | nil =>
    intro cache
    exact (by decide : bioOK "—".data = true)
  | cons pr rest ih =>
    intro cache
    obtain ⟨p, raw⟩ := pr
    cases raw with
    | mb t d c =>
      simp only [fetch_artist_bio_go]
      split_ifs <;>
        first
          | exact ih cache
          | simp_all [mb_extract_shape, List.isEmpty_iff]
    | adb r =>
      simp only [fetch_artist_bio_go]
      split_ifs <;>
        first
          | exact ih cache
          | simp_all [adb_extract_shape, List.isEmpty_iff]
    | lastfm r =>
      simp only [fetch_artist_bio_go]
      split_ifs <;>
        first
          | exact ih cache
          | simp_all [lastfm_extract_shape, List.isEmpty_iff]
    | discogs r =>
      simp only [fetch_artist_bio_go]
      split_ifs <;>
        first
          | exact ih cache
          | simp_all [discogs_extract_shape, List.isEmpty_iff]
    | genius r =>
      simp only [fetch_artist_bio_go]
      split_ifs <;>
        first
          | exact ih cache
          | simp_all [genius_extract_shape, List.isEmpty_iff]
    | nothing =>
      simp only [fetch_artist_bio_go]
      split_ifs <;>
        first
          | exact ih cache
          | simp_all

theorem bioOK_cached (cache : BioCache) (a bio : List Char)
    (hc : bioCacheOK cache = true) (h : get_cached_bio cache a = some (some bio)) :
    bioOK bio = true := by
  simp only [get_cached_bio] at h
  cases hae : (artist_key a).isEmpty with
  | true => rw [hae] at h; simp at h
  | false =>
    rw [hae] at h
    simp only [Bool.false_eq_true, if_false, dictGet] at h
    obtain ⟨entry, hfind, heq⟩ := Option.map_eq_some'.mp h
    have hmem : entry ∈ cache := List.mem_of_find?_eq_some hfind
    have hall := List.all_eq_true.mp hc entry hmem
    rw [heq] at hall
    simpa using hall

/-- C10: under the assumption that every cached bio was written by this
program's own cache writes, `fetch_artist_bio` always returns a non-empty
string of at most `MAX_BIO_CHARS` characters with internal whitespace
collapsed — every provider result passes through the truncation helper — and
the no-result fallback (an exhausted provider list) is the placeholder `—`. -/
theorem C10_fetch_artist_bio_shape (artist : List Char) (state : AdminState)
    (cache : BioCache) (raws : List ProviderRaw)
    (hc : bioCacheOK cache = true) :
    bioOK (fetch_artist_bio artist state cache raws).1 = true ∧
    (fetch_artist_bio_go (pyStrip artist) cache []).1 = "—".data := by
  refine ⟨?_, rfl⟩
  simp only [fetch_artist_bio]
  cases hcond : ((pyStrip artist).isEmpty || pyStrip artist == "—".data) with
  | true =>
    rw [if_pos rfl]
    exact (by decide : bioOK "—".data = true)
  | false =>
    rw [if_neg (by simp)]
    cases hcache : get_cached_bio cache (pyStrip artist) with
    | none => exact fetch_artist_bio_go_shape _ _ cache
    | some ob =>
      cases ob with
      | none => exact fetch_artist_bio_go_shape _ _ cache
      | some bio => exact bioOK_cached cache _ bio hc hcache

theorem C10_fetch_artist_bio_shape_witness :
    bioOK (fetch_artist_bio "Nirvana".data ⟨[], [], []⟩ [] []).1 = true :=
  (C10_fetch_artist_bio_shape "Nirvana".data ⟨[], [], []⟩ [] [] (by decide)).1

end MuzicChannelz
